import Mathlib

set_option maxHeartbeats 1000000

/-!
Formal model of the INFO-6420-ODrive keyboard motor-control scripts:
`py_twomotortest.py` (dual-actuator variant, namespace `TwoMotor`),
`py_keycontroltest.py` (simulated keyboard single-actuator variant,
namespace `KeyControl`) and `py_onewheeltest.py` (line-input
single-actuator variant, namespace `OneWheel`).

Each sampling cycle of the keyboard variants is modelled as a pure step
function on the thread's state (the globals `running` and `current_key`)
together with the last commanded motor velocities; the observable actions
(prints and actuator writes) are collected as an event list.  An uncaught
`KeyboardInterrupt` escaping an iteration is recorded in the `exn` flag.
Actuator-port failures (`axis.controller.input_vel` raising) are modelled
by a fault model the port write consults.
-/

/-- Result of one terminal wait in `getch_non_blocking`: either the 0.5 s
`select` timeout expires with no byte available (`none`), or exactly one
byte `c` is read from stdin. -/
inductive Sample
  | none
  | byte (c : Char)
  deriving DecidableEq, Repr

/-- Terminal attribute configuration, as saved by `termios.tcgetattr` and
restored by `termios.tcsetattr`.  Modelled abstractly as a number. -/
abbrev TermMode := Nat

/-- The configuration installed by `tty.setraw`. -/
def rawTermMode : TermMode := 0

/-- A terminal mode-changing operation performed by `getch_non_blocking`. -/
inductive TermOp
  | setraw
  | tcsetattr (m : TermMode)
  deriving DecidableEq, Repr

def applyTermOp (_m : TermMode) : TermOp → TermMode
  | TermOp.setraw => rawTermMode
  | TermOp.tcsetattr old => old

def runTermOps (m : TermMode) (ops : List TermOp) : TermMode :=
  ops.foldl applyTermOp m

def isSetraw : TermOp → Bool
  | TermOp.setraw => true
  | TermOp.tcsetattr _ => false

def isTcsetattr : TermOp → Bool
  | TermOp.setraw => false
  | TermOp.tcsetattr _ => true

/-- A `try`/`finally` block: the finaliser's terminal operations run after
the body's on every exit path (normal return or raised exception). -/
def withFinalizer {α : Type} (body : List TermOp × α) (fin : List TermOp) :
    List TermOp × α :=
  (body.1 ++ fin, body.2)

/-- An operation by one of the concurrently scheduled contexts: one
iteration of the key-monitor thread, delivery of SIGINT to the registered
`signal_handler`, or one poll of the main thread's wait loop. -/
inductive SysOp
  | cycleOp (b : Sample)
  | sigint
  | mainPoll

namespace TwoMotor

/-- A decoded key as stored in `current_key`: an ordinary character, or
the string `'esc'` that `getch_non_blocking` returns for byte 0x1B. -/
inductive Key
  | char (c : Char)
  | esc
  deriving DecidableEq, Repr

inductive Axis
  | left
  | right
  deriving DecidableEq, Repr

/-- One actuator write: `set_motor_velocity(axis, vel)`. -/
structure Cmd where
  axis : Axis
  vel : Int
  deriving DecidableEq, Repr

/-- Last commanded `input_vel` of each axis. -/
structure Motors where
  left : Int
  right : Int
  deriving DecidableEq, Repr

/-- The monitor thread's shared state: the globals `running` and
`current_key` of `py_twomotortest.py`. -/
structure MState where
  running : Bool
  current_key : Option Key
  deriving DecidableEq, Repr

/-- Which port writes fail: `fm a v = true` means the assignment
`axis.controller.input_vel = v` on axis `a` raises. -/
abbrev FaultModel := Axis → Int → Bool

def noFault : FaultModel := fun _ _ => false

def VELOCITY : Int := 1

/-- The raw assignment `axis.controller.input_vel = velocity`; it may
raise (device absent, communication fault), which the fault model
decides. -/
def portWrite (fm : FaultModel) (a : Axis) (v : Int) : Except Unit Unit :=
  if fm a v then Except.error () else Except.ok ()

def applyCmd (m : Motors) (c : Cmd) : Motors :=
  match c.axis with
  | Axis.left => { m with left := c.vel }
  | Axis.right => { m with right := c.vel }

/-- Observable action of the monitor thread: the `Command:` print at the
top of `handle_motor_control` (a press being dispatched), a successful
actuator write, a logged failed write, or the
`Keys released, stopping all motors` print. -/
inductive Ev
  | pressed (k : Key)
  | cmd (a : Axis) (v : Int)
  | cmdFailed (a : Axis) (v : Int)
  | released
  deriving DecidableEq, Repr

/-- `set_motor_velocity`: performs the port write inside `try`/`except`;
on failure it prints `Failed to set velocity` and drops the command, so
no exception escapes the call. -/
def set_motor_velocity (fm : FaultModel) (m : Motors) (a : Axis) (v : Int) :
    Motors × List Ev :=
  match portWrite fm a v with
  | Except.ok _ => (applyCmd m ⟨a, v⟩, [Ev.cmd a v])
  | Except.error _ => (m, [Ev.cmdFailed a v])

/-- `stop_motor`: calls `set_motor_velocity(axis, 0)`. -/
def stop_motor (a : Axis) : List Cmd := [⟨a, 0⟩]

/-- `stop_all_motors`: stops the left then the right motor. -/
def stop_all_motors : List Cmd := stop_motor Axis.left ++ stop_motor Axis.right

/-- Execute a list of actuator writes in order through
`set_motor_velocity` under the given fault model. -/
def execCmds (fm : FaultModel) (m : Motors) : List Cmd → Motors × List Ev
  | [] => (m, [])
  | c :: cs =>
    let r1 := set_motor_velocity fm m c.axis c.vel
    let r2 := execCmds fm r1.1 cs
    (r2.1, r1.2 ++ r2.2)

/-- `handle_motor_control`: the if/elif dispatch table of
`py_twomotortest.py`, returning the ordered actuator writes it performs
and its boolean result (`False` only for `'esc'`). -/
def handle_motor_control (key : Key) : List Cmd × Bool :=
  if key = Key.char '1' then ([⟨Axis.left, VELOCITY⟩], true)
  else if key = Key.char '2' then ([⟨Axis.left, -VELOCITY⟩], true)
  else if key = Key.char '3' then ([⟨Axis.right, VELOCITY⟩], true)
  else if key = Key.char '4' then ([⟨Axis.right, -VELOCITY⟩], true)
  else if key = Key.char 'w' then
    ([⟨Axis.left, VELOCITY⟩, ⟨Axis.right, VELOCITY⟩], true)
  else if key = Key.char 's' then
    ([⟨Axis.left, -VELOCITY⟩, ⟨Axis.right, -VELOCITY⟩], true)
  else if key = Key.char 'a' then
    ([⟨Axis.right, VELOCITY⟩, ⟨Axis.left, 0⟩], true)
  else if key = Key.char 'd' then
    ([⟨Axis.left, VELOCITY⟩, ⟨Axis.right, 0⟩], true)
  else if key = Key.char 'q' then
    ([⟨Axis.left, -VELOCITY⟩, ⟨Axis.right, VELOCITY⟩], true)
  else if key = Key.char 'e' then
    ([⟨Axis.right, -VELOCITY⟩, ⟨Axis.left, VELOCITY⟩], true)
  else if key = Key.char 'x' then (stop_all_motors, true)
  else if key = Key.esc then ([], false)
  else ([], true)

/-- Decoding performed by the body of `getch_non_blocking` in
`py_twomotortest.py`: timeout gives `None`; byte 0x03 raises
`KeyboardInterrupt` (modelled as `Except.error`); byte 0x1B is returned
as the token `'esc'`; any other byte is returned as itself. -/
def getch_result : Sample → Except Unit (Option Key)
  | Sample.none => Except.ok Option.none
  | Sample.byte c =>
    if c = '\x03' then Except.error ()
    else if c = '\x1b' then Except.ok (some Key.esc)
    else Except.ok (some (Key.char c))

/-- `getch_non_blocking` with its terminal side effects: it saves the
current attributes with `tcgetattr`, enters raw mode inside `try`, and
the `finally` clause restores the saved attributes on every exit path. -/
def getch_non_blocking (cur : TermMode) (b : Sample) :
    List TermOp × Except Unit (Option Key) :=
  withFinalizer ([TermOp.setraw], getch_result b) [TermOp.tcsetattr cur]

/-- Outcome of one iteration of the `while running` loop of
`key_monitor_thread`: the state and motors afterwards, the observable
events of the iteration in order, and whether an uncaught
`KeyboardInterrupt` escaped the iteration (killing the thread). -/
structure CycleOut where
  st : MState
  mo : Motors
  evs : List Ev
  exn : Bool
  deriving DecidableEq, Repr

/-- The `with key_lock:` block of `key_monitor_thread` (lines 172-189 of
`py_twomotortest.py`): press / sustained-hold / release logic on the key
returned by `getch_non_blocking`. -/
def lockBody (fm : FaultModel) (s : MState) (m : Motors) :
    Option Key → CycleOut
  | some k =>
    if some k ≠ s.current_key then
      let hd := handle_motor_control k
      let ex := execCmds fm m hd.1
      if hd.2 then ⟨⟨s.running, some k⟩, ex.1, Ev.pressed k :: ex.2, false⟩
      else ⟨⟨false, some k⟩, ex.1, Ev.pressed k :: ex.2, false⟩
    else ⟨s, m, [], false⟩
  | Option.none =>
    if s.current_key ≠ Option.none then
      let ex := execCmds fm m stop_all_motors
      ⟨⟨s.running, Option.none⟩, ex.1, Ev.released :: ex.2, false⟩
    else ⟨s, m, [], false⟩

/-- One iteration of the body of `key_monitor_thread` on a sampled byte:
call `getch_non_blocking` (whose `KeyboardInterrupt` on byte 0x03 would
escape the iteration), then run the `with key_lock:` block. -/
def cycle (fm : FaultModel) (s : MState) (m : Motors) (b : Sample) :
    CycleOut :=
  match getch_result b with
  | Except.error _ => ⟨s, m, [], true⟩
  | Except.ok key => lockBody fm s m key

/-- Result of running `key_monitor_thread` over a finite list of sampled
bytes. -/
structure RunOut where
  st : MState
  mo : Motors
  evs : List Ev
  exn : Bool
  deriving DecidableEq, Repr

/-- Run `key_monitor_thread` over a list of sampling outcomes: the
`while running` condition is checked before each iteration; an uncaught
`KeyboardInterrupt` aborts the run with `exn = true`. -/
def key_monitor_run (fm : FaultModel) (s : MState) (m : Motors) :
    List Sample → RunOut
  | [] => ⟨s, m, [], false⟩
  | b :: bs =>
    if s.running then
      let c := cycle fm s m b
      if c.exn then ⟨c.st, c.mo, c.evs, true⟩
      else
        let r := key_monitor_run fm c.st c.mo bs
        ⟨r.st, r.mo, c.evs ++ r.evs, r.exn⟩
    else ⟨s, m, [], false⟩

/-- Initial values of the globals: `running = True`,
`current_key = None`. -/
def init_state : MState := ⟨true, Option.none⟩

/-- Motors at rest before any command is issued. -/
def init_motors : Motors := ⟨0, 0⟩

def isReleasedEv : Ev → Bool
  | Ev.released => true
  | _ => false

def isPressedEv : Ev → Bool
  | Ev.pressed _ => true
  | _ => false

def countReleased (evs : List Ev) : Nat := evs.countP isReleasedEv

def countPressed (evs : List Ev) : Nat := evs.countP isPressedEv

/-- The actuator writes among a list of events (the successful
`input_vel` assignments, in order). -/
def actuatorCalls : List Ev → List Cmd
  | [] => []
  | Ev.cmd a v :: es => ⟨a, v⟩ :: actuatorCalls es
  | _ :: es => actuatorCalls es

/-- The value of `current_key` after each completed iteration of the
monitor loop. -/
def heldTrace (fm : FaultModel) (s : MState) (m : Motors) :
    List Sample → List (Option Key)
  | [] => []
  | b :: bs =>
    if s.running then
      let c := cycle fm s m b
      if c.exn then []
      else c.st.current_key :: heldTrace fm c.st c.mo bs
    else []

/-- Number of holds in a held-key trace: a hold starts whenever the held
key becomes a present value different from the previous cycle's. -/
def countHolds (pre : Option Key) : List (Option Key) → Nat
  | [] => 0
  | h :: t => (if h ≠ pre ∧ h.isSome then 1 else 0) + countHolds h t

/-- One step of the whole process: a monitor-thread iteration (only if
`running` still holds), the SIGINT handler (sets `running = False`), or
a main-thread poll (reads `running`, changes nothing). -/
def sysStep (fm : FaultModel) (s : MState) (m : Motors) :
    SysOp → MState × Motors
  | SysOp.cycleOp b =>
    if s.running then
      let c := cycle fm s m b
      (c.st, c.mo)
    else (s, m)
  | SysOp.sigint => (⟨false, s.current_key⟩, m)
  | SysOp.mainPoll => (s, m)

theorem set_motor_velocity_evs (fm : FaultModel) (m : Motors) (a : Axis)
    (v : Int) :
    (set_motor_velocity fm m a v).2 =
      if fm a v then [Ev.cmdFailed a v] else [Ev.cmd a v] := by
  by_cases h : fm a v <;> simp [set_motor_velocity, portWrite, h]

theorem pressed_not_mem_execCmds (fm : FaultModel) (k : Key) :
    ∀ (cs : List Cmd) (m : Motors), Ev.pressed k ∉ (execCmds fm m cs).2 := by
  intro cs
  induction cs with
  | nil => intro m; simp [execCmds]
  | cons c cs ih =>
    intro m
    simp only [execCmds, List.mem_append, not_or]
    refine ⟨?_, ih _⟩
    rw [set_motor_velocity_evs]
    split <;> simp

theorem released_not_mem_execCmds (fm : FaultModel) :
    ∀ (cs : List Cmd) (m : Motors), Ev.released ∉ (execCmds fm m cs).2 := by
  intro cs
  induction cs with
  | nil => intro m; simp [execCmds]
  | cons c cs ih =>
    intro m
    simp only [execCmds, List.mem_append, not_or]
    refine ⟨?_, ih _⟩
    rw [set_motor_velocity_evs]
    split <;> simp

theorem countReleased_execCmds (fm : FaultModel) (cs : List Cmd)
    (m : Motors) : countReleased (execCmds fm m cs).2 = 0 := by
  rw [countReleased, List.countP_eq_zero]
  intro e he
  cases e with
  | released => exact absurd he (released_not_mem_execCmds fm cs m)
  | pressed k => simp [isReleasedEv]
  | cmd a v => simp [isReleasedEv]
  | cmdFailed a v => simp [isReleasedEv]

theorem countPressed_execCmds (fm : FaultModel) (cs : List Cmd)
    (m : Motors) : countPressed (execCmds fm m cs).2 = 0 := by
  rw [countPressed, List.countP_eq_zero]
  intro e he
  cases e with
  | pressed k => exact absurd he (pressed_not_mem_execCmds fm k cs m)
  | released => simp [isPressedEv]
  | cmd a v => simp [isPressedEv]
  | cmdFailed a v => simp [isPressedEv]

theorem countReleased_nil : countReleased [] = 0 := rfl

theorem countReleased_cons (e : Ev) (evs : List Ev) :
    countReleased (e :: evs)
      = countReleased evs + (if isReleasedEv e then 1 else 0) :=
  List.countP_cons isReleasedEv e evs

theorem countReleased_lockBody_some (fm : FaultModel) (s : MState)
    (m : Motors) (k : Key) :
    countReleased (lockBody fm s m (some k)).evs = 0 := by
  by_cases h : some k ≠ s.current_key
  · simp only [lockBody, if_pos h]
    split <;>
      simp [countReleased_cons, isReleasedEv, countReleased_execCmds]
  · simp [lockBody, h, countReleased]

theorem cycle_none_eq (fm : FaultModel) (s : MState) (m : Motors) :
    cycle fm s m Sample.none = lockBody fm s m Option.none := rfl

theorem cycle_byte_eq (fm : FaultModel) (s : MState) (m : Motors)
    (c : Char) (h3 : ¬c = '\x03') (h1b : ¬c = '\x1b') :
    cycle fm s m (Sample.byte c) = lockBody fm s m (some (Key.char c)) := by
  simp [cycle, getch_result, h3, h1b]

theorem cycle_esc_eq (fm : FaultModel) (s : MState) (m : Motors) :
    cycle fm s m (Sample.byte '\x1b') = lockBody fm s m (some Key.esc) := by
  simp [cycle, getch_result]

theorem cycle_interrupt_eq (fm : FaultModel) (s : MState) (m : Motors) :
    cycle fm s m (Sample.byte '\x03') = ⟨s, m, [], true⟩ := by
  simp [cycle, getch_result]

theorem pressed_mem_lockBody_some (fm : FaultModel) (s : MState)
    (m : Motors) (k k' : Key) :
    Ev.pressed k ∈ (lockBody fm s m (some k')).evs
      ↔ (k = k' ∧ s.current_key ≠ some k') := by
  by_cases h : some k' ≠ s.current_key
  · have h2 : s.current_key ≠ some k' := Ne.symm h
    simp only [lockBody, if_pos h]
    split <;> simp [pressed_not_mem_execCmds, h2]
  · rw [not_ne_iff] at h
    have hcond : ¬(some k' ≠ s.current_key) := not_ne_iff.mpr h
    simp only [lockBody, if_neg hcond]
    simp [← h]

theorem pressed_not_mem_lockBody_none (fm : FaultModel) (s : MState)
    (m : Motors) (k : Key) :
    Ev.pressed k ∉ (lockBody fm s m Option.none).evs := by
  by_cases h : s.current_key = Option.none <;>
    simp [lockBody, h, pressed_not_mem_execCmds]

theorem lockBody_control_fault_free (fm : FaultModel) (s : MState)
    (m : Motors) (k : Option Key) :
    (lockBody fm s m k).st = (lockBody noFault s m k).st
  ∧ (lockBody fm s m k).exn = (lockBody noFault s m k).exn := by
  cases k with
  | none =>
    by_cases h : s.current_key = Option.none <;> simp [lockBody, h]
  | some k =>
    by_cases h : some k ≠ s.current_key
    · by_cases hh : (handle_motor_control k).2 <;>
        simp [lockBody, h, hh]
    · simp [lockBody, h]

end TwoMotor

namespace KeyControl

/-- The monitor thread's shared state: the globals `running` and
`current_key` of `py_keycontroltest.py`.  Keys are plain characters;
this variant does not decode 0x1B specially. -/
structure KState where
  running : Bool
  current_key : Option Char
  deriving DecidableEq, Repr

/-- Observable action prints of the simulated single-actuator variant. -/
inductive KEv
  | forward
  | backward
  | quitMsg
  | stopOther
  | stopReleased
  deriving DecidableEq, Repr

/-- The if/elif dispatch on a newly pressed key (lines 53-62 of
`py_keycontroltest.py`): returns the printed action and whether
`running` stays true. -/
def key_action (c : Char) : KEv × Bool :=
  if c = '1' then (KEv.forward, true)
  else if c = '2' then (KEv.backward, true)
  else if c.toLower = 'q' then (KEv.quitMsg, false)
  else (KEv.stopOther, true)

/-- Decoding performed by `getch_non_blocking` in
`py_keycontroltest.py`: timeout gives `None`; byte 0x03 raises
`KeyboardInterrupt`; every other byte, including 0x1B, is returned as an
ordinary character. -/
def getch_result : Sample → Except Unit (Option Char)
  | Sample.none => Except.ok Option.none
  | Sample.byte c =>
    if c = '\x03' then Except.error ()
    else Except.ok (some c)

/-- `getch_non_blocking` of `py_keycontroltest.py` with its terminal side
effects; the `finally` clause restores the saved attributes on every
exit path. -/
def getch_non_blocking (cur : TermMode) (b : Sample) :
    List TermOp × Except Unit (Option Char) :=
  withFinalizer ([TermOp.setraw], getch_result b) [TermOp.tcsetattr cur]

/-- Outcome of one iteration of the `while running` loop of
`key_monitor_thread` in `py_keycontroltest.py`. -/
structure KCycleOut where
  st : KState
  evs : List KEv
  exn : Bool
  deriving DecidableEq, Repr

/-- The `with key_lock:` block of `key_monitor_thread` (lines 47-67 of
`py_keycontroltest.py`). -/
def lockBody (s : KState) : Option Char → KCycleOut
  | some c =>
    if some c ≠ s.current_key then
      let ac := key_action c
      ⟨⟨if ac.2 then s.running else false, some c⟩, [ac.1], false⟩
    else ⟨s, [], false⟩
  | Option.none =>
    if s.current_key = some '1' ∨ s.current_key = some '2' then
      ⟨⟨s.running, Option.none⟩, [KEv.stopReleased], false⟩
    else ⟨⟨s.running, Option.none⟩, [], false⟩

/-- One iteration of the body of `key_monitor_thread` (lines 44-69 of
`py_keycontroltest.py`). -/
def cycle (s : KState) (b : Sample) : KCycleOut :=
  match getch_result b with
  | Except.error _ => ⟨s, [], true⟩
  | Except.ok key => lockBody s key

/-- Initial values of the globals: `running = True`,
`current_key = None`. -/
def init_state : KState := ⟨true, Option.none⟩

def isStopReleased : KEv → Bool
  | KEv.stopReleased => true
  | _ => false

/-- One step of the whole process, as in the dual variant: a
monitor-thread iteration, the SIGINT handler, or a main-thread poll. -/
def sysStep (s : KState) : SysOp → KState
  | SysOp.cycleOp b =>
    if s.running then (cycle s b).st else s
  | SysOp.sigint => ⟨false, s.current_key⟩
  | SysOp.mainPoll => s

theorem key_action_not_stopReleased (c : Char) :
    isStopReleased (key_action c).1 = false := by
  rw [key_action]
  split_ifs <;> rfl

theorem kcycle_none_eq (s : KState) :
    cycle s Sample.none = lockBody s Option.none := rfl

theorem kcycle_byte_eq (s : KState) (c : Char) (h3 : ¬c = '\x03') :
    cycle s (Sample.byte c) = lockBody s (some c) := by
  simp [cycle, getch_result, h3]

theorem kcycle_interrupt_eq (s : KState) :
    cycle s (Sample.byte '\x03') = ⟨s, [], true⟩ := by
  simp [cycle, getch_result]

end KeyControl

namespace OneWheel

/-- A logged outcome of `set_velocity` in `py_onewheeltest.py`: the
`Velocity set to` print on success, or the `Failed to set velocity`
print when the port write raises. -/
inductive OLog
  | velSet (v : Int)
  | velFailed (v : Int)
  deriving DecidableEq, Repr

/-- `set_velocity`: assigns `input_vel` inside `try`/`except`; on failure
the command is dropped and the error logged, and no exception escapes. -/
def set_velocity (fm : Int → Bool) (cur v : Int) : Int × List OLog :=
  if fm v then (cur, [OLog.velFailed v]) else (v, [OLog.velSet v])

/-- Python `str.lower()` applied to the entered line, character by
character. -/
def lowerStr (s : String) : String := String.mk (s.data.map Char.toLower)

/-- The if/elif dispatch of the main control loop (lines 107-118 of
`py_onewheeltest.py`): returns the ordered velocity writes it performs
and whether the loop continues (`false` only on the quit input, where
`stop_motor` writes velocity 0 before `break`).  Any other input prints
`Invalid input` and performs no write. -/
def dispatch_input (inp : String) : List Int × Bool :=
  if inp = "1" then ([1], true)
  else if inp = "2" then ([-1], true)
  else if inp = "0" then ([0], true)
  else if lowerStr inp = "q" then ([0], false)
  else ([], true)

/-- Execute a list of velocity writes in order through `set_velocity`. -/
def exec_writes (fm : Int → Bool) (cur : Int) : List Int → Int × List OLog
  | [] => (cur, [])
  | v :: vs =>
    let r1 := set_velocity fm cur v
    let r2 := exec_writes fm r1.1 vs
    (r2.1, r1.2 ++ r2.2)

/-- The main control loop over a list of entered lines: dispatch each
input, stopping after the quit input's `break`.  Returns the final
commanded velocity, the logs, and whether the loop was quit. -/
def main_loop (fm : Int → Bool) (vel : Int) :
    List String → Int × List OLog × Bool
  | [] => (vel, [], false)
  | inp :: rest =>
    let d := dispatch_input inp
    let e := exec_writes fm vel d.1
    if d.2 then
      let r := main_loop fm e.1 rest
      (r.1, e.2 ++ r.2.1, r.2.2)
    else (e.1, e.2, true)

end OneWheel

/-- Claim C1 (code divergence): when the Interrupt byte 0x03 is sampled,
the `KeyboardInterrupt` raised inside `getch_non_blocking` escapes
`key_monitor_thread` uncaught, so the monitor thread dies with `running`
still `True` and no stop command is issued to any actuator — shown here
both from the initial state and from a state where `'w'` is held with
both motors running. -/
theorem interrupt_byte_kills_monitor_without_stop :
    TwoMotor.key_monitor_run TwoMotor.noFault TwoMotor.init_state
        TwoMotor.init_motors [Sample.byte '\x03']
      = ⟨TwoMotor.init_state, TwoMotor.init_motors, [], true⟩
  ∧ TwoMotor.key_monitor_run TwoMotor.noFault
        ⟨true, some (TwoMotor.Key.char 'w')⟩ ⟨1, 1⟩ [Sample.byte '\x03']
      = ⟨⟨true, some (TwoMotor.Key.char 'w')⟩, ⟨1, 1⟩, [], true⟩ :=
  ⟨by decide, by decide⟩

/-- Claim C2 (counterexample): in the run `['a', 'd', None]` from the
initial state there are two holds (of `'a'` and of `'d'`) but only one
release action is performed — the hold of `'a'`, ended by the press of
`'d'`, produces no release — so a release is not emitted exactly once
per hold. -/
theorem release_not_once_per_hold_cex :
    TwoMotor.countHolds Option.none
        (TwoMotor.heldTrace TwoMotor.noFault TwoMotor.init_state
          TwoMotor.init_motors
          [Sample.byte 'a', Sample.byte 'd', Sample.none]) = 2
  ∧ TwoMotor.countReleased
        (TwoMotor.key_monitor_run TwoMotor.noFault TwoMotor.init_state
          TwoMotor.init_motors
          [Sample.byte 'a', Sample.byte 'd', Sample.none]).evs = 1 :=
  ⟨by decide, by decide⟩

/-- Claim C3 (counterexample): dispatching the quit symbol `'esc'` in the
dual-actuator variant issues no actuator command at all (while a stop-all
would be two commands); the run on the single Escape byte ends with
`running = false` (the dispatch returned Stop) and an empty actuator-call
list. -/
theorem quit_dispatch_no_stop_cex :
    (TwoMotor.handle_motor_control TwoMotor.Key.esc).1 = []
  ∧ TwoMotor.stop_all_motors ≠ []
  ∧ TwoMotor.actuatorCalls
        (TwoMotor.key_monitor_run TwoMotor.noFault TwoMotor.init_state
          TwoMotor.init_motors [Sample.byte '\x1b']).evs = []
  ∧ (TwoMotor.key_monitor_run TwoMotor.noFault TwoMotor.init_state
        TwoMotor.init_motors [Sample.byte '\x1b']).st.running = false :=
  ⟨by decide, by decide, by decide, by decide⟩

/-- Claim C4 (counterexample): in the line-input single-actuator variant
(`py_onewheeltest.py`), the unmapped input `"z"` issues no actuator
command; after `"1"` then `"z"`, the commanded velocity is still `1`, so
unrecognized input does not halt motion there. -/
theorem onewheel_unmapped_no_stop_cex :
    OneWheel.dispatch_input "z" = ([], true)
  ∧ OneWheel.main_loop (fun _ => false) 0 ["1", "z"]
      = (1, [OneWheel.OLog.velSet 1], false) :=
  ⟨by decide, by decide⟩

/-- Claim C7: in the dual-actuator variant, the input sequence
`[Char('w'), None]` from the initial state produces exactly the actuator
call sequence `setVelocity(left,+1)`, `setVelocity(right,+1)`,
`stop(left)`, `stop(right)`, in that order. -/
theorem scenario_b_call_sequence :
    TwoMotor.actuatorCalls
        (TwoMotor.key_monitor_run TwoMotor.noFault TwoMotor.init_state
          TwoMotor.init_motors [Sample.byte 'w', Sample.none]).evs
      = [⟨TwoMotor.Axis.left, TwoMotor.VELOCITY⟩,
          ⟨TwoMotor.Axis.right, TwoMotor.VELOCITY⟩]
        ++ TwoMotor.stop_motor TwoMotor.Axis.left
        ++ TwoMotor.stop_motor TwoMotor.Axis.right := by decide

/-- Claim C10: each single-axis key `'1'`/`'2'`/`'3'`/`'4'` of the
dual-actuator dispatcher commands only its own axis and leaves the other
axis's last commanded velocity unchanged; in particular pressing `'3'`
while `'1'` is held leaves the left motor running forward with no
intervening stop. -/
theorem single_axis_keys_preserve_other_axis :
    (∀ m : TwoMotor.Motors,
      (TwoMotor.execCmds TwoMotor.noFault m
        (TwoMotor.handle_motor_control (TwoMotor.Key.char '1')).1).1.right
        = m.right)
  ∧ (∀ m : TwoMotor.Motors,
      (TwoMotor.execCmds TwoMotor.noFault m
        (TwoMotor.handle_motor_control (TwoMotor.Key.char '2')).1).1.right
        = m.right)
  ∧ (∀ m : TwoMotor.Motors,
      (TwoMotor.execCmds TwoMotor.noFault m
        (TwoMotor.handle_motor_control (TwoMotor.Key.char '3')).1).1.left
        = m.left)
  ∧ (∀ m : TwoMotor.Motors,
      (TwoMotor.execCmds TwoMotor.noFault m
        (TwoMotor.handle_motor_control (TwoMotor.Key.char '4')).1).1.left
        = m.left)
  ∧ (TwoMotor.key_monitor_run TwoMotor.noFault TwoMotor.init_state
        TwoMotor.init_motors [Sample.byte '1', Sample.byte '3']).mo
      = ⟨1, 1⟩
  ∧ TwoMotor.actuatorCalls
        (TwoMotor.key_monitor_run TwoMotor.noFault TwoMotor.init_state
          TwoMotor.init_motors [Sample.byte '1', Sample.byte '3']).evs
      = [⟨TwoMotor.Axis.left, 1⟩, ⟨TwoMotor.Axis.right, 1⟩] :=
  ⟨fun _ => rfl, fun _ => rfl, fun _ => rfl, fun _ => rfl,
    by decide, by decide⟩

/-- Claim C6: every call of `getch_non_blocking`, in both keyboard
variants and on every exit path (a character read, a timeout, or the
`KeyboardInterrupt` raise), enters raw mode exactly once, restores the
saved terminal attributes exactly once, and leaves the terminal mode
observed after the call equal to the mode observed before it. -/
theorem terminal_mode_roundtrip (cur : TermMode) (b : Sample) :
    runTermOps cur (TwoMotor.getch_non_blocking cur b).1 = cur
  ∧ (TwoMotor.getch_non_blocking cur b).1.countP isSetraw = 1
  ∧ (TwoMotor.getch_non_blocking cur b).1.countP isTcsetattr = 1
  ∧ (TwoMotor.getch_non_blocking cur b).2 = TwoMotor.getch_result b
  ∧ runTermOps cur (KeyControl.getch_non_blocking cur b).1 = cur
  ∧ (KeyControl.getch_non_blocking cur b).1.countP isSetraw = 1
  ∧ (KeyControl.getch_non_blocking cur b).1.countP isTcsetattr = 1
  ∧ (KeyControl.getch_non_blocking cur b).2 = KeyControl.getch_result b :=
  ⟨rfl, rfl, rfl, rfl, rfl, rfl, rfl, rfl⟩

/-- Claim C2 (amended): a release action is performed in a sampling cycle
exactly when that cycle samples `None` while a key is held (in the
simulated single-actuator variant, only while `'1'` or `'2'` is held),
and any such cycle also clears HeldKey, ending the hold — so each hold
produces at most one release, at a terminating `None` cycle, and a hold
ended by a different key press produces none. -/
theorem release_only_on_empty_sample (fm : TwoMotor.FaultModel)
    (s : TwoMotor.MState) (m : TwoMotor.Motors) (ks : KeyControl.KState)
    (b : Sample) :
    TwoMotor.countReleased (TwoMotor.cycle fm s m b).evs
      = (if b = Sample.none ∧ s.current_key ≠ Option.none then 1 else 0)
  ∧ (b = Sample.none →
      (TwoMotor.cycle fm s m b).st.current_key = Option.none)
  ∧ (KeyControl.cycle ks b).evs.countP KeyControl.isStopReleased
      = (if b = Sample.none ∧
            (ks.current_key = some '1' ∨ ks.current_key = some '2')
          then 1 else 0)
  ∧ (b = Sample.none →
      (KeyControl.cycle ks b).st.current_key = Option.none) := by
  refine ⟨?_, ?_, ?_, ?_⟩
  · cases b with
    | none =>
      by_cases h : s.current_key = Option.none <;>
        simp [TwoMotor.cycle_none_eq, TwoMotor.lockBody, h,
          TwoMotor.countReleased_nil, TwoMotor.countReleased_cons,
          TwoMotor.isReleasedEv, TwoMotor.countReleased_execCmds]
    | byte c =>
      by_cases h3 : c = '\x03'
      · subst h3
        simp [TwoMotor.cycle_interrupt_eq, TwoMotor.countReleased_nil]
      · by_cases h1b : c = '\x1b'
        · subst h1b
          simp [TwoMotor.cycle_esc_eq,
            TwoMotor.countReleased_lockBody_some]
        · simp [TwoMotor.cycle_byte_eq fm s m c h3 h1b,
            TwoMotor.countReleased_lockBody_some]
  · intro hb
    subst hb
    by_cases h : s.current_key = Option.none <;>
      simp [TwoMotor.cycle_none_eq, TwoMotor.lockBody, h]
  · cases b with
    | none =>
      by_cases h : ks.current_key = some '1' ∨ ks.current_key = some '2' <;>
        simp [KeyControl.kcycle_none_eq, KeyControl.lockBody, h,
          KeyControl.isStopReleased]
    | byte c =>
      by_cases h3 : c = '\x03'
      · subst h3
        simp [KeyControl.kcycle_interrupt_eq]
      · by_cases hcur : some c ≠ ks.current_key <;>
          simp [KeyControl.kcycle_byte_eq ks c h3, KeyControl.lockBody,
            hcur, KeyControl.key_action_not_stopReleased]
  · intro hb
    subst hb
    by_cases h : ks.current_key = some '1' ∨ ks.current_key = some '2' <;>
      simp [KeyControl.kcycle_none_eq, KeyControl.lockBody, h]

/-- Witness for `release_only_on_empty_sample` at a concrete cycle: a
`None` sample while `'w'` is held performs exactly one release action and
clears the held key. -/
theorem release_only_on_empty_sample_witness :
    TwoMotor.countReleased
        (TwoMotor.cycle TwoMotor.noFault
          ⟨true, some (TwoMotor.Key.char 'w')⟩ ⟨1, 1⟩ Sample.none).evs = 1
  ∧ (TwoMotor.cycle TwoMotor.noFault
        ⟨true, some (TwoMotor.Key.char 'w')⟩ ⟨1, 1⟩
        Sample.none).st.current_key = Option.none := by
  have h := release_only_on_empty_sample TwoMotor.noFault
    ⟨true, some (TwoMotor.Key.char 'w')⟩ ⟨1, 1⟩ KeyControl.init_state
    Sample.none
  refine ⟨?_, h.2.1 rfl⟩
  rw [h.1]
  decide

/-- Claim C5: a `Pressed(k)` dispatch happens in a cycle exactly when the
sampled symbol decodes to `k` and differs from the current HeldKey (so at
most once per unbroken hold); a cycle whose symbol equals the HeldKey
changes nothing and emits nothing; a `None` cycle clears HeldKey; and
HeldKey changes only on a `None` cycle or on a symbol differing from it —
in both keyboard variants. -/
theorem pressed_once_per_hold (fm : TwoMotor.FaultModel)
    (s : TwoMotor.MState) (m : TwoMotor.Motors) (ks : KeyControl.KState)
    (b : Sample) :
    (∀ k : TwoMotor.Key,
        TwoMotor.getch_result b = Except.ok (some k) →
        s.current_key = some k →
        TwoMotor.cycle fm s m b = ⟨s, m, [], false⟩)
  ∧ (∀ k : TwoMotor.Key,
        TwoMotor.Ev.pressed k ∈ (TwoMotor.cycle fm s m b).evs ↔
          (TwoMotor.getch_result b = Except.ok (some k)
            ∧ s.current_key ≠ some k))
  ∧ (b = Sample.none →
        (TwoMotor.cycle fm s m b).st.current_key = Option.none)
  ∧ ((TwoMotor.cycle fm s m b).st.current_key ≠ s.current_key →
        b = Sample.none
        ∨ ∃ k : TwoMotor.Key,
            TwoMotor.getch_result b = Except.ok (some k)
              ∧ some k ≠ s.current_key)
  ∧ (∀ c : Char,
        KeyControl.getch_result b = Except.ok (some c) →
        ks.current_key = some c →
        KeyControl.cycle ks b = ⟨ks, [], false⟩)
  ∧ (b = Sample.none →
        (KeyControl.cycle ks b).st.current_key = Option.none)
  ∧ ((KeyControl.cycle ks b).st.current_key ≠ ks.current_key →
        b = Sample.none
        ∨ ∃ c : Char,
            KeyControl.getch_result b = Except.ok (some c)
              ∧ some c ≠ ks.current_key) := by
  refine ⟨?_, ?_, ?_, ?_, ?_, ?_, ?_⟩
  · intro k hk hcur
    cases b with
    | none => simp [TwoMotor.getch_result] at hk
    | byte c =>
      by_cases h3 : c = '\x03'
      · subst h3
        simp [TwoMotor.getch_result] at hk
      · by_cases h1b : c = '\x1b'
        · subst h1b
          have hke : k = TwoMotor.Key.esc := by
            simpa [TwoMotor.getch_result] using hk.symm
          subst hke
          rw [TwoMotor.cycle_esc_eq]
          simp [TwoMotor.lockBody, hcur]
        · have hkc : k = TwoMotor.Key.char c := by
            simpa [TwoMotor.getch_result, h3, h1b] using hk.symm
          subst hkc
          rw [TwoMotor.cycle_byte_eq fm s m c h3 h1b]
          simp [TwoMotor.lockBody, hcur]
  · intro k
    cases b with
    | none =>
      rw [TwoMotor.cycle_none_eq]
      simp [TwoMotor.pressed_not_mem_lockBody_none,
        TwoMotor.getch_result]
    | byte c =>
      by_cases h3 : c = '\x03'
      · subst h3
        rw [TwoMotor.cycle_interrupt_eq]
        simp [TwoMotor.getch_result]
      · by_cases h1b : c = '\x1b'
        · subst h1b
          have hg : TwoMotor.getch_result (Sample.byte '\x1b')
              = Except.ok (some TwoMotor.Key.esc) := rfl
          rw [TwoMotor.cycle_esc_eq, TwoMotor.pressed_mem_lockBody_some,
            hg]
          simp only [Except.ok.injEq, Option.some.injEq]
          constructor
          · rintro ⟨rfl, h⟩; exact ⟨rfl, h⟩
          · rintro ⟨rfl, h⟩; exact ⟨rfl, h⟩
        · have hg : TwoMotor.getch_result (Sample.byte c)
              = Except.ok (some (TwoMotor.Key.char c)) := by
            simp [TwoMotor.getch_result, h3, h1b]
          rw [TwoMotor.cycle_byte_eq fm s m c h3 h1b,
            TwoMotor.pressed_mem_lockBody_some, hg]
          simp only [Except.ok.injEq, Option.some.injEq]
          constructor
          · rintro ⟨rfl, h⟩; exact ⟨rfl, h⟩
          · rintro ⟨rfl, h⟩; exact ⟨rfl, h⟩
  · intro hb
    subst hb
    by_cases h : s.current_key = Option.none <;>
      simp [TwoMotor.cycle_none_eq, TwoMotor.lockBody, h]
  · intro hch
    cases b with
    | none => exact Or.inl rfl
    | byte c =>
      refine Or.inr ?_
      by_cases h3 : c = '\x03'
      · subst h3
        rw [TwoMotor.cycle_interrupt_eq] at hch
        exact absurd rfl hch
      · by_cases h1b : c = '\x1b'
        · subst h1b
          rw [TwoMotor.cycle_esc_eq] at hch
          refine ⟨TwoMotor.Key.esc, by simp [TwoMotor.getch_result], ?_⟩
          by_cases hne : some TwoMotor.Key.esc ≠ s.current_key
          · exact hne
          · rw [not_ne_iff] at hne
            have hcond : ¬(some TwoMotor.Key.esc ≠ s.current_key) :=
              not_ne_iff.mpr hne
            simp [TwoMotor.lockBody, hcond] at hch
        · rw [TwoMotor.cycle_byte_eq fm s m c h3 h1b] at hch
          refine ⟨TwoMotor.Key.char c,
            by simp [TwoMotor.getch_result, h3, h1b], ?_⟩
          by_cases hne : some (TwoMotor.Key.char c) ≠ s.current_key
          · exact hne
          · rw [not_ne_iff] at hne
            have hcond : ¬(some (TwoMotor.Key.char c) ≠ s.current_key) :=
              not_ne_iff.mpr hne
            simp [TwoMotor.lockBody, hcond] at hch
  · intro c hk hcur
    cases b with
    | none => simp [KeyControl.getch_result] at hk
    | byte c0 =>
      by_cases h3 : c0 = '\x03'
      · subst h3
        simp [KeyControl.getch_result] at hk
      · have hkc : c = c0 := by
          simpa [KeyControl.getch_result, h3] using hk.symm
        subst hkc
        rw [KeyControl.kcycle_byte_eq ks c h3]
        simp [KeyControl.lockBody, hcur]
  · intro hb
    subst hb
    by_cases h : ks.current_key = some '1' ∨ ks.current_key = some '2' <;>
      simp [KeyControl.kcycle_none_eq, KeyControl.lockBody, h]
  · intro hch
    cases b with
    | none => exact Or.inl rfl
    | byte c =>
      refine Or.inr ?_
      by_cases h3 : c = '\x03'
      · subst h3
        rw [KeyControl.kcycle_interrupt_eq] at hch
        exact absurd rfl hch
      · rw [KeyControl.kcycle_byte_eq ks c h3] at hch
        refine ⟨c, by simp [KeyControl.getch_result, h3], ?_⟩
        by_cases hne : some c ≠ ks.current_key
        · exact hne
        · rw [not_ne_iff] at hne
          have hcond : ¬(some c ≠ ks.current_key) := not_ne_iff.mpr hne
          simp [KeyControl.lockBody, hcond] at hch

/-- Witness for `pressed_once_per_hold` at a concrete cycle: sampling
`'w'` again while `'w'` is already held changes nothing and emits no
event. -/
theorem pressed_once_per_hold_witness :
    TwoMotor.cycle TwoMotor.noFault
        ⟨true, some (TwoMotor.Key.char 'w')⟩ ⟨1, 1⟩ (Sample.byte 'w')
      = ⟨⟨true, some (TwoMotor.Key.char 'w')⟩, ⟨1, 1⟩, [], false⟩ :=
  (pressed_once_per_hold TwoMotor.noFault
      ⟨true, some (TwoMotor.Key.char 'w')⟩ ⟨1, 1⟩ KeyControl.init_state
      (Sample.byte 'w')).1 (TwoMotor.Key.char 'w') rfl rfl

/-- Claim C3 (amended): on the quit symbol the dual-actuator dispatcher
returns Stop without itself issuing any actuator command (the stop-all is
performed by the lifecycle cleanup after the loop exits), and the
simulated single-actuator variant likewise only prints and clears the run
flag on case-insensitive `'q'`; the line-input single-actuator variant
does issue a stop write before returning Stop; every other input returns
Continue in all variants. -/
theorem quit_dispatch_returns_stop (k : TwoMotor.Key) (c : Char)
    (inp : String) :
    TwoMotor.handle_motor_control TwoMotor.Key.esc = ([], false)
  ∧ (k ≠ TwoMotor.Key.esc → (TwoMotor.handle_motor_control k).2 = true)
  ∧ (c ≠ '1' → c ≠ '2' → c.toLower = 'q' →
      KeyControl.key_action c = (KeyControl.KEv.quitMsg, false))
  ∧ (c.toLower ≠ 'q' → (KeyControl.key_action c).2 = true)
  ∧ (OneWheel.lowerStr inp = "q" →
      OneWheel.dispatch_input inp = ([0], false))
  ∧ (OneWheel.lowerStr inp ≠ "q" →
      (OneWheel.dispatch_input inp).2 = true) := by
  refine ⟨by decide, ?_, ?_, ?_, ?_, ?_⟩
  · intro h
    cases k with
    | esc => exact absurd rfl h
    | char c0 =>
      simp [TwoMotor.handle_motor_control, apply_ite Prod.snd]
  · intro h1 h2 hq
    simp [KeyControl.key_action, h1, h2, hq]
  · intro hq
    simp only [KeyControl.key_action]
    split_ifs <;> rfl
  · intro hq
    by_cases e1 : inp = "1"
    · subst e1; exact absurd hq (by decide)
    · by_cases e2 : inp = "2"
      · subst e2; exact absurd hq (by decide)
      · by_cases e0 : inp = "0"
        · subst e0; exact absurd hq (by decide)
        · simp [OneWheel.dispatch_input, e1, e2, e0, hq]
  · intro hq
    simp only [OneWheel.dispatch_input]
    split_ifs <;> rfl

/-- Witness for `quit_dispatch_returns_stop` at concrete inputs: a
non-quit key returns Continue, and the quit inputs of the two
single-actuator variants behave as amended. -/
theorem quit_dispatch_returns_stop_witness :
    (TwoMotor.handle_motor_control (TwoMotor.Key.char 'w')).2 = true
  ∧ KeyControl.key_action 'Q' = (KeyControl.KEv.quitMsg, false)
  ∧ OneWheel.dispatch_input "Q" = ([0], false) := by
  have h := quit_dispatch_returns_stop (TwoMotor.Key.char 'w') 'Q' "Q"
  exact ⟨h.2.1 (by decide), h.2.2.1 (by decide) (by decide) (by decide),
    h.2.2.2.2.1 (by decide)⟩

/-- Claim C4 (amended): a symbol not in the active key table triggers the
stop action in the sampling single-actuator variant; in the line-input
single-actuator variant unmapped input is rejected with a message and no
actuator command (motion is not halted); in the dual-actuator variant the
symbol is ignored with no actuator command. -/
theorem unmapped_key_default (c : Char) (inp : String) :
    (c ≠ '1' → c ≠ '2' → c.toLower ≠ 'q' →
      KeyControl.key_action c = (KeyControl.KEv.stopOther, true))
  ∧ (c ∉ ['1', '2', '3', '4', 'w', 's', 'a', 'd', 'q', 'e', 'x'] →
      TwoMotor.handle_motor_control (TwoMotor.Key.char c) = ([], true))
  ∧ (inp ≠ "1" → inp ≠ "2" → inp ≠ "0" → OneWheel.lowerStr inp ≠ "q" →
      OneWheel.dispatch_input inp = ([], true)) := by
  refine ⟨?_, ?_, ?_⟩
  · intro h1 h2 hq
    simp [KeyControl.key_action, h1, h2, hq]
  · intro h
    simp only [List.mem_cons, not_or] at h
    obtain ⟨h1, h2, h3, h4, h5, h6, h7, h8, h9, h10, h11, -⟩ := h
    simp [TwoMotor.handle_motor_control, h1, h2, h3, h4, h5, h6, h7, h8,
      h9, h10, h11]
  · intro h1 h2 h0 hq
    simp [OneWheel.dispatch_input, h1, h2, h0, hq]

/-- Witness for `unmapped_key_default` at the concrete unmapped input
`'z'` / `"z"` in each variant. -/
theorem unmapped_key_default_witness :
    KeyControl.key_action 'z' = (KeyControl.KEv.stopOther, true)
  ∧ TwoMotor.handle_motor_control (TwoMotor.Key.char 'z') = ([], true)
  ∧ OneWheel.dispatch_input "z" = ([], true) := by
  have h := unmapped_key_default 'z' "z"
  exact ⟨h.1 (by decide) (by decide) (by decide),
    h.2.1 (by decide),
    h.2.2 (by decide) (by decide) (by decide) (by decide)⟩

/-- Claim C8: the run flag starts true and is a one-way latch — once
false, no operation of any scheduled context (a monitor-thread cycle, the
SIGINT handler, or a main-thread poll) ever makes it true again, in
either keyboard variant. -/
theorem runflag_one_way_latch (fm : TwoMotor.FaultModel)
    (s : TwoMotor.MState) (m : TwoMotor.Motors) (ks : KeyControl.KState)
    (op : SysOp) :
    TwoMotor.init_state.running = true
  ∧ KeyControl.init_state.running = true
  ∧ (s.running = false → (TwoMotor.sysStep fm s m op).1.running = false)
  ∧ (ks.running = false → (KeyControl.sysStep ks op).running = false) := by
  refine ⟨rfl, rfl, ?_, ?_⟩
  · intro h
    cases op with
    | cycleOp b => simp [TwoMotor.sysStep, h]
    | sigint => rfl
    | mainPoll => simpa [TwoMotor.sysStep] using h
  · intro h
    cases op with
    | cycleOp b => simp [KeyControl.sysStep, h]
    | sigint => rfl
    | mainPoll => simpa [KeyControl.sysStep] using h

/-- Witness for `runflag_one_way_latch` at concrete stopped states: a
further monitor cycle and a further SIGINT leave the flag false. -/
theorem runflag_one_way_latch_witness :
    (TwoMotor.sysStep TwoMotor.noFault ⟨false, Option.none⟩ ⟨0, 0⟩
        (SysOp.cycleOp (Sample.byte 'w'))).1.running = false
  ∧ (KeyControl.sysStep ⟨false, Option.none⟩ SysOp.sigint).running
      = false := by
  have h := runflag_one_way_latch TwoMotor.noFault ⟨false, Option.none⟩
    ⟨0, 0⟩ ⟨false, Option.none⟩ (SysOp.cycleOp (Sample.byte 'w'))
  have h2 := runflag_one_way_latch TwoMotor.noFault ⟨false, Option.none⟩
    ⟨0, 0⟩ ⟨false, Option.none⟩ SysOp.sigint
  exact ⟨h.2.2.1 rfl, h2.2.2.2 rfl⟩

/-- Claim C9: an actuator-port failure during steady-state operation is
non-fatal — `set_motor_velocity` (and `set_velocity` in the line-input
variant) returns normally on both outcomes of the port write, dropping
the command and logging the error on failure, applying it on success —
and the control state and exception outcome of a monitor cycle are the
same under any fault model as with no faults, so the sampling/dispatch
loop continues identically. -/
theorem actuator_failure_nonfatal (fm : TwoMotor.FaultModel)
    (s : TwoMotor.MState) (m : TwoMotor.Motors) (a : TwoMotor.Axis)
    (v : Int) (b : Sample) (fmO : Int → Bool) (cur w : Int) :
    (TwoMotor.portWrite fm a v = Except.error () →
      TwoMotor.set_motor_velocity fm m a v
        = (m, [TwoMotor.Ev.cmdFailed a v]))
  ∧ (TwoMotor.portWrite fm a v = Except.ok () →
      TwoMotor.set_motor_velocity fm m a v
        = (TwoMotor.applyCmd m ⟨a, v⟩, [TwoMotor.Ev.cmd a v]))
  ∧ (TwoMotor.cycle fm s m b).st
      = (TwoMotor.cycle TwoMotor.noFault s m b).st
  ∧ (TwoMotor.cycle fm s m b).exn
      = (TwoMotor.cycle TwoMotor.noFault s m b).exn
  ∧ (fmO w = true →
      OneWheel.set_velocity fmO cur w = (cur, [OneWheel.OLog.velFailed w]))
  ∧ (fmO w = false →
      OneWheel.set_velocity fmO cur w = (w, [OneWheel.OLog.velSet w])) := by
  have hctl : (TwoMotor.cycle fm s m b).st
        = (TwoMotor.cycle TwoMotor.noFault s m b).st
    ∧ (TwoMotor.cycle fm s m b).exn
        = (TwoMotor.cycle TwoMotor.noFault s m b).exn := by
    cases b with
    | none =>
      rw [TwoMotor.cycle_none_eq, TwoMotor.cycle_none_eq]
      exact TwoMotor.lockBody_control_fault_free fm s m Option.none
    | byte c =>
      by_cases h3 : c = '\x03'
      · subst h3
        rw [TwoMotor.cycle_interrupt_eq, TwoMotor.cycle_interrupt_eq]
        exact ⟨rfl, rfl⟩
      · by_cases h1b : c = '\x1b'
        · subst h1b
          rw [TwoMotor.cycle_esc_eq, TwoMotor.cycle_esc_eq]
          exact TwoMotor.lockBody_control_fault_free fm s m
            (some TwoMotor.Key.esc)
        · rw [TwoMotor.cycle_byte_eq fm s m c h3 h1b,
            TwoMotor.cycle_byte_eq TwoMotor.noFault s m c h3 h1b]
          exact TwoMotor.lockBody_control_fault_free fm s m
            (some (TwoMotor.Key.char c))
  refine ⟨?_, ?_, hctl.1, hctl.2, ?_, ?_⟩
  · intro h
    simp [TwoMotor.set_motor_velocity, h]
  · intro h
    simp [TwoMotor.set_motor_velocity, h]
  · intro h
    simp [OneWheel.set_velocity, h]
  · intro h
    simp [OneWheel.set_velocity, h]

/-- Witness for `actuator_failure_nonfatal` under an always-failing port:
the failed write is dropped and logged without an escaping exception. -/
theorem actuator_failure_nonfatal_witness :
    TwoMotor.set_motor_velocity (fun _ _ => true) ⟨0, 0⟩
        TwoMotor.Axis.left 1
      = (⟨0, 0⟩, [TwoMotor.Ev.cmdFailed TwoMotor.Axis.left 1])
  ∧ OneWheel.set_velocity (fun _ => true) 0 1
      = (0, [OneWheel.OLog.velFailed 1]) := by
  have h := actuator_failure_nonfatal (fun _ _ => true)
    TwoMotor.init_state ⟨0, 0⟩ TwoMotor.Axis.left 1 Sample.none
    (fun _ => true) 0 1
  exact ⟨h.1 rfl, h.2.2.2.2.1 rfl⟩
